import Mathlib

/-!
Verification of the query pipeline of the gramps-project/web-api repository,
centred on the person resource (`src/gramps_webapi/api/resources/person.py`:
`PersonResourceHelper.object_extend`) together with the rule-set combinator,
sort engine and profile engine described by the specification.

Components whose implementation files are not part of the source tree
(`filter.py`, `util.py`, the generic resource base) are modelled from the
specification; each such definition carries a doc comment starting with
"Modelled from the spec".
-/

namespace GrampsWebapi

/-- A partial calendar date; the spec (§4.5) works with two partial dates any
component of which may be unknown, and treats a fully-unknown date as absent
(`Option PDate = none`). -/
structure PDate where
  year : Nat
  month : Nat
  day : Nat
deriving DecidableEq

/-- A resolved entity returned by the entity store.  The store's entities are
opaque to the expansion engine except for their stable `handle` (spec §3); the
`etype`, `date` and `place` payload fields are the parts of the record the
profile engine reads (event type, event date, event place, and — for family
records — the marriage date). -/
structure GObj where
  handle : String
  etype : String := ""
  date : Option PDate := none
  place : String := ""
deriving DecidableEq

/-- An event reference record: a handle plus auxiliary role metadata
(spec §3, "a handle plus auxiliary metadata, e.g. an event-reference carrying
a role"). -/
structure EventRef where
  ref : String
  role : String := ""
deriving DecidableEq

/-- A media reference record (handle plus metadata). -/
structure MediaRef where
  ref : String
deriving DecidableEq

/-- A person reference record (handle plus metadata). -/
structure PersonRef where
  ref : String
deriving DecidableEq

/-- The person entity: the fields read by
`PersonResourceHelper.object_extend` (person.py lines 26-45) and by the
filtering and sorting claims.  `main_parents_family_handle` models the value
of `obj.get_main_parents_family_handle()`, the "main parents" lookup that the
spec (§4.4, §6) treats as store-provided and distinct from
`parent_family_list`; it is `none` when no primary parent family is set.
Gender wire codes follow the test data: female = 0, male = 1, unknown = 2. -/
structure Person where
  handle : String
  gramps_id : String
  gender : Nat
  citation_list : List String
  event_ref_list : List EventRef
  family_list : List String
  parent_family_list : List String
  main_parents_family_handle : Option String
  media_list : List MediaRef
  note_list : List String
  person_ref_list : List PersonRef
  tag_list : List String
deriving DecidableEq

/-- Read API of the entity store (spec §6, an external collaborator):
`get(handle) -> Entity | not found`, one lookup per entity kind, modelled as
partial functions into `Option`. -/
structure Db where
  get_citation_from_handle : String → Option GObj
  get_event_from_handle : String → Option GObj
  get_family_from_handle : String → Option GObj
  get_media_from_handle : String → Option GObj
  get_note_from_handle : String → Option GObj
  get_person_from_handle : String → Option GObj
  get_tag_from_handle : String → Option GObj

/-- Modelled from the spec: `get_family_by_handle` lives in
`src/gramps_webapi/api/resources/util.py`, which is not under src/.  Per §4.4
a scalar reference "resolves to one entity or is omitted if unresolved"
(broken-reference tolerance, never raises), so the helper is a total function
into `Option`; the handle argument may itself be absent (Python `None`), as at
the `primary_parent_family` call site in person.py. -/
def get_family_by_handle (db : Db) (handle : Option String) : Option GObj :=
  handle.bind db.get_family_from_handle

/-- Modelled from the spec: `get_events_for_references` (util.py, not under
src/) resolves the entity's `event_ref_list`; per §4.4 "a list reference
resolves to a list with unresolved members dropped (order preserved among
resolved members)". -/
def get_events_for_references (db : Db) (obj : Person) : List GObj :=
  obj.event_ref_list.filterMap (fun r => db.get_event_from_handle r.ref)

/-- Modelled from the spec: `get_media_for_references` (util.py, not under
src/), resolving `media_list` with unresolved members dropped (§4.4). -/
def get_media_for_references (db : Db) (obj : Person) : List GObj :=
  obj.media_list.filterMap (fun r => db.get_media_from_handle r.ref)

/-- Modelled from the spec: `get_people_for_references` (util.py, not under
src/), resolving `person_ref_list` with unresolved members dropped (§4.4). -/
def get_people_for_references (db : Db) (obj : Person) : List GObj :=
  obj.person_ref_list.filterMap (fun r => db.get_person_from_handle r.ref)

/-- Options of the profile engine (spec §4.5): `self` is the base layer (always
present), `age` adds computed age strings at birth and death, `events` adds
the full event list, `families` adds family sub-summaries, `span` adds
marriage-duration strings to family sub-summaries; `all` sets every flag. -/
structure ProfileOptions where
  age : Bool
  events : Bool
  families : Bool
  span : Bool
deriving DecidableEq

/-- Modelled from the spec (§4.5): locale-dependent phrasing of an elapsed
time of `y` years, `m` months and `d` days (test data: "0 days",
"62 years, 1 months, 19 days", German "0 Tage"). -/
def format_span (locale : String) (y m d : Nat) : String :=
  if y == 0 && m == 0 && d == 0 then
    if locale == "de" then "0 Tage" else "0 days"
  else if locale == "de" then
    toString y ++ " Jahre, " ++ toString m ++ " Monate, " ++ toString d ++ " Tage"
  else
    toString y ++ " years, " ++ toString m ++ " months, " ++ toString d ++ " days"

/-- Day ordinal of a partial date under the model's civil calendar
(12 months of 30 days), used only to order and subtract partial dates. -/
def PDate.ordinal (d : PDate) : Nat :=
  d.year * 360 + d.month * 30 + d.day

/-- Modelled from the spec (§4.5): elapsed time between two partial dates as a
locale-formatted string; "if either date is fully unknown, the corresponding
age field is omitted, not zero". -/
def elapsed (locale : String) (d1 d2 : Option PDate) : Option String :=
  match d1, d2 with
  | some a, some b =>
      let days := b.ordinal - a.ordinal
      some (format_span locale (days / 360) (days % 360 / 30) (days % 30))
  | _, _ => none

/-- One entry of a person profile's event list (event type, date, place, and
the optional computed age at the event). -/
structure ProfileEvent where
  etype : String
  date : Option PDate
  place : String
  age : Option String
deriving DecidableEq

/-- One family sub-summary of a person profile; `marriage_span` is the
marriage-duration string added by the `span` option (§4.5). -/
structure FamilyProfile where
  handle : String
  marriage_span : Option String
deriving DecidableEq

/-- The derived person profile (spec §3, §4.5): a read-only summary object.
The `events`, `families`, `primary_parent_family` and `other_parent_families`
sections are present exactly when their option is requested. -/
structure PersonProfile where
  handle : String
  gramps_id : String
  sex : String
  birth : Option ProfileEvent
  death : Option ProfileEvent
  events : Option (List ProfileEvent)
  families : Option (List FamilyProfile)
  primary_parent_family : Option (Option FamilyProfile)
  other_parent_families : Option (List FamilyProfile)
deriving DecidableEq

/-- The person's resolved events (via the reference-record helper). -/
def person_events (db : Db) (obj : Person) : List GObj :=
  get_events_for_references db obj

/-- The person's first resolved event of the given type, the vital-event
lookup used for the birth and death entries of the profile. -/
def find_event (db : Db) (obj : Person) (t : String) : Option GObj :=
  (person_events db obj).find? (fun e => e.etype == t)

/-- Wire encoding of the gender code as the profile's `sex` field. -/
def sex_string (gender : Nat) : String :=
  if gender == 0 then "F" else if gender == 1 then "M" else "U"

/-- Family sub-summary for one family handle; unresolved family handles are
dropped by the caller (§4.4 broken-reference tolerance). -/
def family_profile (db : Db) (opts : ProfileOptions) (locale : String)
    (h : String) : Option FamilyProfile :=
  (db.get_family_from_handle h).map (fun f =>
    { handle := f.handle
      marriage_span := if opts.span then elapsed locale f.date f.date else none })

/-- Modelled from the spec: the profile engine (§4.5) of util.py, which is not
under src/.  The base (`self`) layer carries identity and vital dates without
age; `age` adds elapsed-time strings from the birth date; `events` adds the
full event list with per-event computed age-at-event; `families` adds the
family sub-summaries (own families, primary parent family and the other
parent families); `span` adds marriage-duration strings.  Options compose
additively. -/
def person_profile (db : Db) (obj : Person) (opts : ProfileOptions)
    (locale : String) : PersonProfile :=
  let birth_event := find_event db obj "Birth"
  let birth_date := birth_event.bind GObj.date
  let vital := fun (e : GObj) =>
    { etype := e.etype
      date := e.date
      place := e.place
      age := if opts.age then elapsed locale birth_date e.date else none
      : ProfileEvent }
  { handle := obj.handle
    gramps_id := obj.gramps_id
    sex := sex_string obj.gender
    birth := birth_event.map vital
    death := (find_event db obj "Death").map vital
    events :=
      if opts.events then
        some ((person_events db obj).map (fun e =>
          { etype := e.etype
            date := e.date
            place := e.place
            age := elapsed locale birth_date e.date }))
      else none
    families :=
      if opts.families then
        some (obj.family_list.filterMap (family_profile db opts locale))
      else none
    primary_parent_family :=
      if opts.families then
        some (obj.main_parents_family_handle.bind (family_profile db opts locale))
      else none
    other_parent_families :=
      if opts.families then
        some ((obj.parent_family_list.filter
          (fun h => obj.main_parents_family_handle ≠ some h)).filterMap
            (family_profile db opts locale))
      else none }

/-- Modelled from the spec: `get_person_profile_for_object` lives in util.py
(not under src/); person.py calls it as
`get_person_profile_for_object(db, obj, with_family=True, with_events=True)`.
The locale and the age/span options are fixed here to the full-profile
configuration the resource layer uses for that call (test data shows age
strings present in this profile). -/
def get_person_profile_for_object (db : Db) (obj : Person)
    (with_family with_events : Bool) : PersonProfile :=
  person_profile db obj
    { age := true, events := with_events, families := with_family, span := true }
    "en"

/-- A value of the expansion side-map: either a list of entities (a Python
list whose members are objects or `None`) or a single optional entity. -/
inductive GroupVal where
  | vlist : List (Option GObj) → GroupVal
  | vone : Option GObj → GroupVal
deriving DecidableEq

/-- Result of `PersonResourceHelper.object_extend`: the person object together
with the attributes the method may attach (`obj.profile`, `obj.extended`);
attributes that are not attached are `none`.  The side-map is kept as an
ordered key-value list mirroring the Python dict literal. -/
structure ExtendResult where
  person : Person
  profile : Option PersonProfile
  extended : Option (List (String × GroupVal))
deriving DecidableEq

/-- Embedding of `PersonResourceHelper.object_extend`
(src/gramps_webapi/api/resources/person.py, lines 18-46): when
`self.build_profile` is set it attaches the person profile, and when
`self.extend_object` is set it attaches the side-map with the nine groups
exactly as in the source's dict literal; `citations`, `notes` and `tags` call
the store getters directly per handle, `families` and `parent_families` go
through `get_family_by_handle` per handle, `primary_parent_family` resolves
the main-parents handle, and `events`, `media` and `people` use the
reference-record helpers. -/
def object_extend (db : Db) (build_profile extend_object : Bool)
    (obj : Person) : ExtendResult :=
  { person := obj
    profile :=
      if build_profile then
        some (get_person_profile_for_object db obj true true)
      else none
    extended :=
      if extend_object then
        some [
          ("citations", GroupVal.vlist (obj.citation_list.map db.get_citation_from_handle)),
          ("events", GroupVal.vlist ((get_events_for_references db obj).map some)),
          ("families", GroupVal.vlist (obj.family_list.map (fun h => get_family_by_handle db (some h)))),
          ("parent_families", GroupVal.vlist (obj.parent_family_list.map (fun h => get_family_by_handle db (some h)))),
          ("primary_parent_family", GroupVal.vone (get_family_by_handle db obj.main_parents_family_handle)),
          ("media", GroupVal.vlist ((get_media_for_references db obj).map some)),
          ("notes", GroupVal.vlist (obj.note_list.map db.get_note_from_handle)),
          ("people", GroupVal.vlist ((get_people_for_references db obj).map some)),
          ("tags", GroupVal.vlist (obj.tag_list.map db.get_tag_from_handle))
        ]
      else none }

/-- The group names of the attached side-map, in attachment order. -/
def extended_keys (r : ExtendResult) : List String :=
  (r.extended.getD []).map Prod.fst

/-- Lookup of one group of the attached side-map by name. -/
def extended_group (r : ExtendResult) (k : String) : Option GroupVal :=
  r.extended.bind (List.lookup k)

/-- The member list of a list-valued group (empty for absent or scalar groups). -/
def group_objs (r : ExtendResult) (k : String) : List (Option GObj) :=
  match extended_group r k with
  | some (GroupVal.vlist l) => l
  | _ => []

/-- Number of members of a group: list length for a list group, 1 for a
scalar group, 0 when the group is absent. -/
def group_length (r : ExtendResult) (k : String) : Nat :=
  match extended_group r k with
  | some (GroupVal.vlist l) => l.length
  | some (GroupVal.vone _) => 1
  | none => 0

/-- Modelled from the spec: the person predicate registry (§4.1; the gramps
rule classes wrapped by filter.py, neither under src/).  The registry covers
the predicates named by the spec's scenarios (§8); gender wire codes are
female = 0, male = 1, unknown = 2, `MultipleMarriages` holds when
`family_list` has length > 1, and `HasTag` holds when the entity's `tag_list`
contains the tag's handle (the name-to-handle resolution that predicates may
perform against the store is abstracted by passing the handle). -/
inductive PersonRule where
  | IsMale
  | IsFemale
  | HasUnknownGender
  | MultipleMarriages
  | HasTag (handle : String)
deriving DecidableEq

/-- Evaluation of one named predicate against one entity (spec §4.1):
side-effect free and deterministic. -/
def rule_apply : PersonRule → Person → Bool
  | PersonRule.IsMale, p => p.gender == 1
  | PersonRule.IsFemale, p => p.gender == 0
  | PersonRule.HasUnknownGender, p => p.gender == 2
  | PersonRule.MultipleMarriages, p => decide (1 < p.family_list.length)
  | PersonRule.HasTag h, p => p.tag_list.contains h

/-- The rule-set combinator functions (spec §4.2): the wire value `function`
is one of and/or/xor/one, defaulting to `and`. -/
inductive RuleFn where
  | and
  | or
  | xor
  | one
deriving DecidableEq

/-- A rule set (spec §3, §6): a predicate list, a combinator function
(default `and`) and an invert flag (default false). -/
structure Ruleset where
  function : RuleFn := RuleFn.and
  invert : Bool := false
  rules : List PersonRule := []
deriving DecidableEq

/-- Modelled from the spec: the rule-set combinator of filter.py (not under
src/), §4.2.  Every predicate is evaluated against the entity and the boolean
vector is combined with the chosen function — `and`: all true; `or`: at least
one true; `xor`: true count is odd; `one`: true count is exactly one — with
the spec's explicit edge case (§4.2, §8, §9) that an empty rule list matches
everything under every function ("vacuous true").  `invert` is applied by
`ruleset_matches` after combination, never per predicate. -/
def ruleset_combined (rs : Ruleset) (p : Person) : Bool :=
  let results := rs.rules.map (fun r => rule_apply r p)
  if rs.rules.isEmpty then true
  else
    match rs.function with
    | RuleFn.and => results.all (fun b => b)
    | RuleFn.or => results.any (fun b => b)
    | RuleFn.xor => results.count true % 2 == 1
    | RuleFn.one => results.count true == 1

/-- Membership test of one entity under a rule set: the combined result,
complemented once at the end when `invert` is set (spec §3, §4.2). -/
def ruleset_matches (rs : Ruleset) (p : Person) : Bool :=
  if rs.invert then !(ruleset_combined rs p) else ruleset_combined rs p

/-- Modelled from the spec: `apply_filter_rules` (filter.py, not under src/)
selects from the store's candidate entities those whose membership test
holds (§4.2, §6). -/
def apply_filter_rules (store : List Person) (rs : Ruleset) : List Person :=
  store.filter (ruleset_matches rs)

/-- Sort direction of a sort key (spec §4.3). -/
inductive SortDirection where
  | asc
  | desc
deriving DecidableEq

/-- The ascending sort order (spec §4.3): compare by the key's extracted
comparable scalar, ties broken by the entity's stable `handle` ascending. -/
def asc_rel (keyOf : Person → Int) (a b : Person) : Prop :=
  keyOf a < keyOf b ∨ (keyOf a = keyOf b ∧ a.handle ≤ b.handle)

/-- The descending sort order (spec §4.3): compare by the key descending,
ties still broken by the stable `handle` ascending, so tied entities keep the
same relative order in both directions. -/
def desc_rel (keyOf : Person → Int) (a b : Person) : Prop :=
  keyOf b < keyOf a ∨ (keyOf a = keyOf b ∧ a.handle ≤ b.handle)

instance (keyOf : Person → Int) (a b : Person) : Decidable (asc_rel keyOf a b) :=
  inferInstanceAs (Decidable (Or _ _))

instance (keyOf : Person → Int) (a b : Person) : Decidable (desc_rel keyOf a b) :=
  inferInstanceAs (Decidable (Or _ _))

/-- Boolean comparator handed to the sorting routine. -/
def sort_le (keyOf : Person → Int) : SortDirection → Person → Person → Bool
  | SortDirection.asc, a, b => decide (asc_rel keyOf a b)
  | SortDirection.desc, a, b => decide (desc_rel keyOf a b)

/-- Modelled from the spec: the sort engine (§4.3) of the generic resource
base, which is not under src/.  Each sort key (together with the request's
locale, whose collation is already folded into the extraction function)
yields a pure extraction function `keyOf` into a comparable scalar; the
sequence is ordered by the key in the requested direction with ties broken by
the stable handle ascending. -/
def order_people (keyOf : Person → Int) (dir : SortDirection)
    (l : List Person) : List Person :=
  l.mergeSort (sort_le keyOf dir)

/-- A store in which every lookup is unresolved, used as the base of the
concrete test stores. -/
def db_empty : Db :=
  { get_citation_from_handle := fun _ => none
    get_event_from_handle := fun _ => none
    get_family_from_handle := fun _ => none
    get_media_from_handle := fun _ => none
    get_note_from_handle := fun _ => none
    get_person_from_handle := fun _ => none
    get_tag_from_handle := fun _ => none }

/-- A person with every field empty, used as the base of the concrete test
entities. -/
def person_base : Person :=
  { handle := ""
    gramps_id := ""
    gender := 2
    citation_list := []
    event_ref_list := []
    family_list := []
    parent_family_list := []
    main_parents_family_handle := none
    media_list := []
    note_list := []
    person_ref_list := []
    tag_list := [] }

/-- Store resolving the two family handles F1 and F2. -/
def db_families : Db :=
  { db_empty with
    get_family_from_handle := fun h =>
      if h == "F1" then some { handle := "F1" }
      else if h == "F2" then some { handle := "F2" }
      else none }

/-- A person with two parent families whose primary parent family is F1. -/
def person_two_parent_families : Person :=
  { person_base with
    handle := "P1"
    gramps_id := "I0001"
    parent_family_list := ["F1", "F2"]
    main_parents_family_handle := some "F1" }

/-- Store resolving only the citation handle C1. -/
def db_one_citation : Db :=
  { db_empty with
    get_citation_from_handle := fun h =>
      if h == "C1" then some { handle := "C1" } else none }

/-- A person with one resolvable citation handle, one dangling citation
handle, and a dangling primary-parent-family handle. -/
def person_dangling_refs : Person :=
  { person_base with
    handle := "P2"
    gramps_id := "I0002"
    citation_list := ["C1", "CX"]
    main_parents_family_handle := some "FX" }

/-- A person with a nonzero list in every reference field. -/
def person_all_refs : Person :=
  { person_base with
    handle := "P3"
    gramps_id := "I0003"
    citation_list := ["C1"]
    event_ref_list := [{ ref := "E1" }]
    family_list := ["F1"]
    parent_family_list := ["F1", "F2"]
    main_parents_family_handle := some "F1"
    media_list := [{ ref := "M1" }]
    note_list := ["N1"]
    person_ref_list := [{ ref := "P9" }]
    tag_list := ["T1"]
    gender := 1 }

/-- A male person with no families: no predicate of the xor scenario holds. -/
def person_male_unmarried : Person :=
  { person_base with handle := "P7", gramps_id := "I0007", gender := 1 }

/-- A female person with two families: both predicates of the xor scenario
hold. -/
def person_female_married_twice : Person :=
  { person_base with
    handle := "P8"
    gramps_id := "I0008"
    gender := 0
    family_list := ["F1", "F2"] }

/-- Concrete entity sequence for the sorting witness: two entities tied on
the key (gender 1) with handles out of order, one entity with a smaller key. -/
def sort_sample : List Person :=
  [{ person_base with handle := "HB", gender := 1 },
   { person_base with handle := "HA", gender := 1 },
   { person_base with handle := "HC", gender := 0 }]

/-- Concrete key extraction for the sorting witness: the gender code. -/
def gender_key (p : Person) : Int :=
  (p.gender : Int)

end GrampsWebapi

namespace GrampsWebapi

/-- Helper: mapping a partial function over a list and then discarding the
unresolved entries is the same as `filterMap`. -/
theorem reduceOption_map_eq_filterMap {α β : Type} (f : α → Option β) :
    ∀ l : List α, (l.map f).reduceOption = l.filterMap f
  | [] => rfl
  | a :: l => by
    cases h : f a <;>
      simp [List.reduceOption, List.filterMap_cons, h,
        reduceOption_map_eq_filterMap f l]

/-- Helper: counting the true entries of a mapped boolean vector is counting
the list entries satisfying the predicate. -/
theorem count_true_map {α : Type} (f : α → Bool) :
    ∀ l : List α, (l.map f).count true = l.countP f
  | [] => rfl
  | a :: l => by
    cases h : f a <;>
      simp [List.count_cons, List.countP_cons, h, count_true_map f l]

/-- C1 (code_bug evidence): for the concrete person with
`parent_family_list = [F1, F2]` and primary parent family F1, the code's
`parent_families` group resolves every entry of `parent_family_list`, so it
has 2 members, while the claim (and the repository's own test
`test_get_people_parameter_extend_expected_result_parent_family_list`)
requires `len(parent_family_list) - 1 = 1` members with the primary family
excluded. -/
theorem c1_parent_families_primary_not_excluded :
    group_length (object_extend db_families false true person_two_parent_families)
        "parent_families" = 2
    ∧ person_two_parent_families.parent_family_list.length - 1 = 1
    ∧ person_two_parent_families.main_parents_family_handle.isSome = true
    ∧ group_objs (object_extend db_families false true person_two_parent_families)
        "parent_families" = [some { handle := "F1" }, some { handle := "F2" }] := by
  decide

/-- C2 (counterexample): expansion does not drop unresolved list members and
does not omit an unresolved scalar reference.  For the concrete person with
`citation_list = [C1, CX]` where only C1 resolves, the `citations` group
keeps 2 members (a null in place of the dangling one), not the 1 member the
claim's drop-semantics predicts; and with a dangling primary-parent-family
handle the `primary_parent_family` group is still present, holding null
instead of being omitted. -/
theorem c2_unresolved_not_dropped_counterexample :
    group_length (object_extend db_one_citation false true person_dangling_refs)
        "citations" = 2
    ∧ (person_dangling_refs.citation_list.filterMap
        db_one_citation.get_citation_from_handle).length = 1
    ∧ group_objs (object_extend db_one_citation false true person_dangling_refs)
        "citations" = [some { handle := "C1" }, none]
    ∧ extended_group (object_extend db_one_citation false true person_dangling_refs)
        "primary_parent_family" = some (GroupVal.vone none)
    ∧ person_dangling_refs.main_parents_family_handle = some "FX"
    ∧ db_one_citation.get_family_from_handle "FX" = none := by
  decide

/-- C2 (amended): expansion is a total function that never fails on a handle
that does not resolve, but unresolved references are kept as nulls rather
than dropped: each group resolved directly per handle (`citations`, `notes`,
`tags`, `families`, `parent_families`) keeps one entry per source handle with
unresolved members appearing as null in place, and discarding those nulls
leaves exactly the resolved entities in source order; the unresolved scalar
`primary_parent_family` group is present with a null value rather than
omitted; only the reference-record groups (`events`, here representative)
drop unresolved members. -/
theorem c2_unresolved_kept_as_null (db : Db) (bp : Bool) (obj : Person) :
    (group_objs (object_extend db bp true obj) "citations").length
        = obj.citation_list.length
    ∧ (group_objs (object_extend db bp true obj) "citations").reduceOption
        = obj.citation_list.filterMap db.get_citation_from_handle
    ∧ (group_objs (object_extend db bp true obj) "notes").length
        = obj.note_list.length
    ∧ (group_objs (object_extend db bp true obj) "notes").reduceOption
        = obj.note_list.filterMap db.get_note_from_handle
    ∧ (group_objs (object_extend db bp true obj) "tags").length
        = obj.tag_list.length
    ∧ (group_objs (object_extend db bp true obj) "families").length
        = obj.family_list.length
    ∧ (group_objs (object_extend db bp true obj) "parent_families").length
        = obj.parent_family_list.length
    ∧ extended_group (object_extend db bp true obj) "primary_parent_family"
        = some (GroupVal.vone
            (obj.main_parents_family_handle.bind db.get_family_from_handle))
    ∧ group_objs (object_extend db bp true obj) "events"
        = (obj.event_ref_list.filterMap
            (fun r => db.get_event_from_handle r.ref)).map some := by
  have hcit : group_objs (object_extend db bp true obj) "citations"
      = obj.citation_list.map db.get_citation_from_handle := rfl
  have hnote : group_objs (object_extend db bp true obj) "notes"
      = obj.note_list.map db.get_note_from_handle := rfl
  have htag : group_objs (object_extend db bp true obj) "tags"
      = obj.tag_list.map db.get_tag_from_handle := rfl
  have hfam : group_objs (object_extend db bp true obj) "families"
      = obj.family_list.map (fun h => get_family_by_handle db (some h)) := rfl
  have hpar : group_objs (object_extend db bp true obj) "parent_families"
      = obj.parent_family_list.map (fun h => get_family_by_handle db (some h)) := rfl
  refine ⟨?_, ?_, ?_, ?_, ?_, ?_, ?_, rfl, rfl⟩
  · rw [hcit, List.length_map]
  · rw [hcit, reduceOption_map_eq_filterMap]
  · rw [hnote, List.length_map]
  · rw [hnote, reduceOption_map_eq_filterMap]
  · rw [htag, List.length_map]
  · rw [hfam, List.length_map]
  · rw [hpar, List.length_map]

/-- C10: with `build_profile` and `extend_object` both false, `object_extend`
returns the entity identically unchanged and attaches neither a `profile` nor
an `extended` attribute. -/
theorem c10_object_extend_noop (db : Db) (obj : Person) :
    object_extend db false false obj
      = { person := obj, profile := none, extended := none } := rfl

/-- C4: `object_extend` never mutates the source entity: whatever the
`build_profile` and `extend_object` flags, the expansion output is attached
only under the separate `extended` attribute and the profile only under
`profile`, and every pre-existing field of the entity is unchanged. -/
theorem c4_object_extend_preserves_entity (db : Db) (bp eo : Bool) (obj : Person) :
    (object_extend db bp eo obj).person = obj
    ∧ (object_extend db bp eo obj).person.handle = obj.handle
    ∧ (object_extend db bp eo obj).person.gramps_id = obj.gramps_id
    ∧ (object_extend db bp eo obj).person.gender = obj.gender
    ∧ (object_extend db bp eo obj).person.citation_list = obj.citation_list
    ∧ (object_extend db bp eo obj).person.event_ref_list = obj.event_ref_list
    ∧ (object_extend db bp eo obj).person.family_list = obj.family_list
    ∧ (object_extend db bp eo obj).person.parent_family_list = obj.parent_family_list
    ∧ (object_extend db bp eo obj).person.main_parents_family_handle
        = obj.main_parents_family_handle
    ∧ (object_extend db bp eo obj).person.media_list = obj.media_list
    ∧ (object_extend db bp eo obj).person.note_list = obj.note_list
    ∧ (object_extend db bp eo obj).person.person_ref_list = obj.person_ref_list
    ∧ (object_extend db bp eo obj).person.tag_list = obj.tag_list :=
  ⟨rfl, rfl, rfl, rfl, rfl, rfl, rfl, rfl, rfl, rfl, rfl, rfl, rfl⟩

/-- C3: for every store and person entity with nonzero lists in every
reference field, expanding with the extension flag set produces a side-map
with exactly the 9 named groups, in the source's order, and no group is keyed
by a source field name. -/
theorem c3_extend_all_nine_groups (db : Db) (bp : Bool) (obj : Person)
    (h1 : obj.citation_list ≠ []) (h2 : obj.event_ref_list ≠ [])
    (h3 : obj.family_list ≠ []) (h4 : obj.parent_family_list ≠ [])
    (h5 : obj.media_list ≠ []) (h6 : obj.note_list ≠ [])
    (h7 : obj.person_ref_list ≠ []) (h8 : obj.tag_list ≠ []) :
    extended_keys (object_extend db bp true obj)
      = ["citations", "events", "families", "parent_families",
         "primary_parent_family", "media", "notes", "people", "tags"]
    ∧ (extended_keys (object_extend db bp true obj)).length = 9
    ∧ ∀ k ∈ extended_keys (object_extend db bp true obj),
        k ∉ ["citation_list", "event_ref_list", "family_list",
             "parent_family_list", "media_list", "note_list",
             "person_ref_list", "tag_list"] := by
  refine ⟨rfl, rfl, ?_⟩
  intro k hk
  have hk9 : k ∈ ["citations", "events", "families", "parent_families",
      "primary_parent_family", "media", "notes", "people", "tags"] := hk
  fin_cases hk9 <;> decide

/-- C3 witness: the nine-group theorem applied to the concrete person with a
nonzero list in every reference field. -/
theorem c3_extend_all_nine_groups_witness :
    extended_keys (object_extend db_empty false true person_all_refs)
      = ["citations", "events", "families", "parent_families",
         "primary_parent_family", "media", "notes", "people", "tags"]
    ∧ (extended_keys (object_extend db_empty false true person_all_refs)).length = 9
    ∧ ∀ k ∈ extended_keys (object_extend db_empty false true person_all_refs),
        k ∉ ["citation_list", "event_ref_list", "family_list",
             "parent_family_list", "media_list", "note_list",
             "person_ref_list", "tag_list"] :=
  c3_extend_all_nine_groups db_empty false person_all_refs
    (by decide) (by decide) (by decide) (by decide)
    (by decide) (by decide) (by decide) (by decide)

/-- C5: a rule set with an empty rule list selects every candidate entity of
the store, regardless of which of the four combinator functions it carries
(vacuous true, spec §4.2/§8). -/
theorem c5_empty_rules_select_all (store : List Person) (f : RuleFn) :
    apply_filter_rules store { function := f, invert := false, rules := [] }
      = store := by
  simp [apply_filter_rules, ruleset_matches, ruleset_combined]

/-- C6: `invert` complements the final combined membership result, applied
once after the combinator: the selection with `invert` set is exactly the
complement, within the full candidate set, of the selection without `invert`,
and flipping `invert` twice returns the original selection. -/
theorem c6_invert_complement (store : List Person) (rs : Ruleset) :
    apply_filter_rules store { rs with invert := true }
      = store.filter (fun p => !(ruleset_matches { rs with invert := false } p))
    ∧ apply_filter_rules store { rs with invert := !(!rs.invert) }
      = apply_filter_rules store rs := by
  constructor
  · have h : ∀ p, ruleset_matches { rs with invert := true } p
        = !(ruleset_matches { rs with invert := false } p) := by
      intro p
      have hc : ∀ b : Bool, ruleset_combined { rs with invert := b } p
          = ruleset_combined rs p := fun _ => rfl
      simp [ruleset_matches, hc]
    simp only [apply_filter_rules]
    exact List.filter_congr (fun p _ => h p)
  · rw [Bool.not_not]

/-- C7 (counterexample): with the spec's vacuous-true edge case for empty
rule lists, an xor rule set with no rules selects an entity although the
number of its predicates that hold (zero) is even, so the stated
if-and-only-if fails for the empty rule list. -/
theorem c7_xor_empty_counterexample :
    ruleset_matches { function := RuleFn.xor, invert := false, rules := [] }
        person_male_unmarried = true
    ∧ (([] : List PersonRule).countP
        (fun r => rule_apply r person_male_unmarried)) % 2 ≠ 1 := by
  decide

/-- C7 (amended): for every nonempty rule list, an xor rule set selects an
entity if and only if the number of its predicates that hold is odd; in
particular, the two-rule set {IsFemale, MultipleMarriages} selects an entity
if and only if exactly one of the two predicates holds. -/
theorem c7_xor_odd_count (rules : List PersonRule) (p : Person)
    (h : rules ≠ []) :
    (ruleset_matches { function := RuleFn.xor, invert := false, rules := rules } p
        = true
      ↔ (rules.countP (fun r => rule_apply r p)) % 2 = 1)
    ∧ (ruleset_matches
        { function := RuleFn.xor, invert := false,
          rules := [PersonRule.IsFemale, PersonRule.MultipleMarriages] } p = true
      ↔ rule_apply PersonRule.IsFemale p ≠ rule_apply PersonRule.MultipleMarriages p) := by
  constructor
  · cases rules with
    | nil => exact absurd rfl h
    | cons r rest =>
      simp [ruleset_matches, ruleset_combined, List.count_cons, List.countP_cons,
        count_true_map]
  · cases hf : rule_apply PersonRule.IsFemale p <;>
      cases hm : rule_apply PersonRule.MultipleMarriages p <;>
      simp [ruleset_matches, ruleset_combined, List.count, hf, hm]

/-- C7 witness: the amended xor theorem applied to the concrete female person
with two families, with the one-rule list {IsFemale}. -/
theorem c7_xor_odd_count_witness :
    (ruleset_matches
        { function := RuleFn.xor, invert := false, rules := [PersonRule.IsFemale] }
        person_female_married_twice = true
      ↔ ([PersonRule.IsFemale].countP
          (fun r => rule_apply r person_female_married_twice)) % 2 = 1)
    ∧ (ruleset_matches
        { function := RuleFn.xor, invert := false,
          rules := [PersonRule.IsFemale, PersonRule.MultipleMarriages] }
        person_female_married_twice = true
      ↔ rule_apply PersonRule.IsFemale person_female_married_twice
          ≠ rule_apply PersonRule.MultipleMarriages person_female_married_twice) :=
  c7_xor_odd_count [PersonRule.IsFemale] person_female_married_twice (by decide)

/-- C9: profile options compose additively (spec §4.5): for every store,
entity and locale, a profile requested with the `families` option alone has
no events list, a profile requested with the `events` option alone has no
family sub-summaries (neither own families nor parent-family summaries), and
neither request adds an age field to the birth entry. -/
theorem c9_profile_options_additive (db : Db) (obj : Person) (locale : String) :
    (person_profile db obj
        { age := false, events := false, families := true, span := false }
        locale).events = none
    ∧ ((person_profile db obj
        { age := false, events := false, families := true, span := false }
        locale).birth.bind ProfileEvent.age) = none
    ∧ (person_profile db obj
        { age := false, events := true, families := false, span := false }
        locale).families = none
    ∧ (person_profile db obj
        { age := false, events := true, families := false, span := false }
        locale).primary_parent_family = none
    ∧ (person_profile db obj
        { age := false, events := true, families := false, span := false }
        locale).other_parent_families = none
    ∧ ((person_profile db obj
        { age := false, events := true, families := false, span := false }
        locale).birth.bind ProfileEvent.age) = none := by
  refine ⟨rfl, ?_, rfl, rfl, rfl, ?_⟩ <;>
    cases h : find_event db obj "Birth" <;>
    simp [person_profile, h]

/-- Helper: prepending an element to a list all of whose members equal it
commutes with inserting it behind that list. -/
theorem cons_append_eq_of_all_eq {α : Type} (a : α) :
    ∀ (u v : List α), (∀ x ∈ u, x = a) → a :: (u ++ v) = u ++ a :: v
  | [], _, _ => rfl
  | b :: u, v, h => by
    have hb : b = a := h b (List.mem_cons_self b u)
    have ih := cons_append_eq_of_all_eq a u v
      (fun x hx => h x (List.mem_cons_of_mem b hx))
    rw [hb]
    simp only [List.cons_append]
    rw [ih]

/-- Helper: two lists sorted under a relation that is antisymmetric on the
members of the first are equal whenever they are permutations of each other
(a membership-local variant of the uniqueness of sorted permutations). -/
theorem sorted_perm_eq_of_antisymm_mem {α : Type} {r : α → α → Prop} :
    ∀ {l₁ l₂ : List α}, l₁.Perm l₂ → l₁.Pairwise r → l₂.Pairwise r →
      (∀ a ∈ l₁, ∀ b ∈ l₁, r a b → r b a → a = b) → l₁ = l₂
  | [], _, hp, _, _, _ => hp.nil_eq
  | a :: l₁, l₂, hp, hs₁, hs₂, hloc => by
    have ha : a ∈ l₂ := hp.subset (List.mem_cons_self a l₁)
    obtain ⟨u₂, v₂, rfl⟩ := List.append_of_mem ha
    have hp' : l₁.Perm (u₂ ++ v₂) := (List.perm_cons a).1 (hp.trans List.perm_middle)
    have hcons := List.pairwise_cons.1 hs₁
    have hs₂' : (u₂ ++ v₂).Pairwise r :=
      List.Pairwise.sublist ((List.sublist_cons_self a v₂).append_left u₂) hs₂
    have hloc' : ∀ x ∈ l₁, ∀ y ∈ l₁, r x y → r y x → x = y := fun x hx y hy =>
      hloc x (List.mem_cons_of_mem a hx) y (List.mem_cons_of_mem a hy)
    have heq : l₁ = u₂ ++ v₂ :=
      sorted_perm_eq_of_antisymm_mem hp' hcons.2 hs₂' hloc'
    subst heq
    have hxa : ∀ x ∈ u₂, x = a := by
      intro x hx
      have hx1 : x ∈ u₂ ++ v₂ := List.mem_append_left v₂ hx
      have hra : r x a :=
        (List.pairwise_append.1 hs₂).2.2 x hx a (List.mem_cons_self a v₂)
      have har : r a x := hcons.1 x hx1
      exact hloc x (List.mem_cons_of_mem a hx1) a (List.mem_cons_self a _) hra har
    exact cons_append_eq_of_all_eq a u₂ v₂ hxa

/-- Helper: the ascending sort order is total. -/
theorem asc_rel_total (keyOf : Person → Int) (a b : Person) :
    asc_rel keyOf a b ∨ asc_rel keyOf b a := by
  rcases lt_trichotomy (keyOf a) (keyOf b) with h | h | h
  · exact Or.inl (Or.inl h)
  · rcases le_total a.handle b.handle with hle | hle
    · exact Or.inl (Or.inr ⟨h, hle⟩)
    · exact Or.inr (Or.inr ⟨h.symm, hle⟩)
  · exact Or.inr (Or.inl h)

/-- Helper: the ascending sort order is transitive. -/
theorem asc_rel_trans (keyOf : Person → Int) (a b c : Person)
    (hab : asc_rel keyOf a b) (hbc : asc_rel keyOf b c) : asc_rel keyOf a c := by
  rcases hab with h1 | ⟨h1, g1⟩ <;> rcases hbc with h2 | ⟨h2, g2⟩
  · exact Or.inl (h1.trans h2)
  · exact Or.inl (by rw [← h2]; exact h1)
  · exact Or.inl (by rw [h1]; exact h2)
  · exact Or.inr ⟨h1.trans h2, g1.trans g2⟩

/-- Helper: the descending sort order is total. -/
theorem desc_rel_total (keyOf : Person → Int) (a b : Person) :
    desc_rel keyOf a b ∨ desc_rel keyOf b a := by
  rcases lt_trichotomy (keyOf a) (keyOf b) with h | h | h
  · exact Or.inr (Or.inl h)
  · rcases le_total a.handle b.handle with hle | hle
    · exact Or.inl (Or.inr ⟨h, hle⟩)
    · exact Or.inr (Or.inr ⟨h.symm, hle⟩)
  · exact Or.inl (Or.inl h)

/-- Helper: the descending sort order is transitive. -/
theorem desc_rel_trans (keyOf : Person → Int) (a b c : Person)
    (hab : desc_rel keyOf a b) (hbc : desc_rel keyOf b c) : desc_rel keyOf a c := by
  rcases hab with h1 | ⟨h1, g1⟩ <;> rcases hbc with h2 | ⟨h2, g2⟩
  · exact Or.inl (h2.trans h1)
  · exact Or.inl (by rw [← h2]; exact h1)
  · exact Or.inl (by rw [h1]; exact h2)
  · exact Or.inr ⟨h1.trans h2, g1.trans g2⟩

/-- C8: the sort engine is a deterministic total order — the output is a
permutation of the input sorted under the direction's order, the order is
total, ties are broken by the stable handle ascending in both directions (the
sortedness of the output under `asc_rel`/`desc_rel`, both of which order
equal-key entities by handle ascending), the order is antisymmetric on any
input with distinct handles, and when no two entities share a key the
descending output is exactly the reverse of the ascending output. -/
theorem c8_sort_total_order_and_reverse (keyOf : Person → Int) (l : List Person)
    (hh : (l.map Person.handle).Nodup) :
    (order_people keyOf SortDirection.asc l).Perm l
    ∧ (order_people keyOf SortDirection.asc l).Pairwise (asc_rel keyOf)
    ∧ (order_people keyOf SortDirection.desc l).Perm l
    ∧ (order_people keyOf SortDirection.desc l).Pairwise (desc_rel keyOf)
    ∧ (∀ a b, asc_rel keyOf a b ∨ asc_rel keyOf b a)
    ∧ (∀ a ∈ l, ∀ b ∈ l, asc_rel keyOf a b → asc_rel keyOf b a → a = b)
    ∧ ((l.map keyOf).Nodup →
        order_people keyOf SortDirection.desc l
          = (order_people keyOf SortDirection.asc l).reverse) := by
  have hpermA : (order_people keyOf SortDirection.asc l).Perm l :=
    List.mergeSort_perm l (sort_le keyOf SortDirection.asc)
  have hpermD : (order_people keyOf SortDirection.desc l).Perm l :=
    List.mergeSort_perm l (sort_le keyOf SortDirection.desc)
  have ascTrans : ∀ a b c : Person, sort_le keyOf SortDirection.asc a b →
      sort_le keyOf SortDirection.asc b c → sort_le keyOf SortDirection.asc a c :=
    fun a b c h1 h2 => decide_eq_true
      (asc_rel_trans keyOf a b c (of_decide_eq_true h1) (of_decide_eq_true h2))
  have ascTotal : ∀ a b : Person,
      sort_le keyOf SortDirection.asc a b || sort_le keyOf SortDirection.asc b a := by
    intro a b
    simp only [sort_le, Bool.or_eq_true, decide_eq_true_eq]
    exact asc_rel_total keyOf a b
  have descTrans : ∀ a b c : Person, sort_le keyOf SortDirection.desc a b →
      sort_le keyOf SortDirection.desc b c → sort_le keyOf SortDirection.desc a c :=
    fun a b c h1 h2 => decide_eq_true
      (desc_rel_trans keyOf a b c (of_decide_eq_true h1) (of_decide_eq_true h2))
  have descTotal : ∀ a b : Person,
      sort_le keyOf SortDirection.desc a b || sort_le keyOf SortDirection.desc b a := by
    intro a b
    simp only [sort_le, Bool.or_eq_true, decide_eq_true_eq]
    exact desc_rel_total keyOf a b
  have hsortedA : (order_people keyOf SortDirection.asc l).Pairwise (asc_rel keyOf) :=
    (List.sorted_mergeSort ascTrans ascTotal l).imp (fun h => of_decide_eq_true h)
  have hsortedD : (order_people keyOf SortDirection.desc l).Pairwise (desc_rel keyOf) :=
    (List.sorted_mergeSort descTrans descTotal l).imp (fun h => of_decide_eq_true h)
  have injH : ∀ x ∈ l, ∀ y ∈ l, x.handle = y.handle → x = y :=
    fun x hx y hy hxy => List.inj_on_of_nodup_map hh hx hy hxy
  refine ⟨hpermA, hsortedA, hpermD, hsortedD, asc_rel_total keyOf, ?_, ?_⟩
  · intro a ha b hb hab hba
    rcases hab with h1 | ⟨h1, g1⟩
    · rcases hba with h2 | ⟨h2, _⟩
      · exact absurd h2 (lt_asymm h1)
      · exact absurd (h2 ▸ h1) (lt_irrefl _)
    · rcases hba with h2 | ⟨_, g2⟩
      · exact absurd (h1 ▸ h2) (lt_irrefl _)
      · exact injH a ha b hb (le_antisymm g1 g2)
  · intro hk
    have inj : ∀ x ∈ l, ∀ y ∈ l, keyOf x = keyOf y → x = y :=
      fun x hx y hy hxy => List.inj_on_of_nodup_map hk hx hy hxy
    have memRev : ∀ x ∈ (order_people keyOf SortDirection.asc l).reverse, x ∈ l :=
      fun x hx => hpermA.subset (List.mem_reverse.1 hx)
    have hrev : (order_people keyOf SortDirection.asc l).reverse.Pairwise
        (fun a b => asc_rel keyOf b a) :=
      List.pairwise_reverse.2 hsortedA
    have hrevD : (order_people keyOf SortDirection.asc l).reverse.Pairwise
        (desc_rel keyOf) := by
      refine List.Pairwise.imp_of_mem ?_ hrev
      intro a b ha hb hab
      rcases hab with h | ⟨h, _⟩
      · exact Or.inl h
      · have hab' : a = b := (inj b (memRev b hb) a (memRev a ha) h).symm
        exact Or.inr ⟨hab' ▸ rfl, hab' ▸ le_refl a.handle⟩
    have hperm : (order_people keyOf SortDirection.desc l).Perm
        ((order_people keyOf SortDirection.asc l).reverse) :=
      (hpermD.trans hpermA.symm).trans (List.reverse_perm _).symm
    have hanti : ∀ a ∈ order_people keyOf SortDirection.desc l,
        ∀ b ∈ order_people keyOf SortDirection.desc l,
        desc_rel keyOf a b → desc_rel keyOf b a → a = b := by
      intro a ha b hb hab hba
      have ha' : a ∈ l := hpermD.subset ha
      have hb' : b ∈ l := hpermD.subset hb
      rcases hab with h1 | ⟨h1, _⟩
      · rcases hba with h2 | ⟨h2, _⟩
        · exact absurd h2 (lt_asymm h1)
        · exact (inj b hb' a ha' h2).symm
      · exact inj a ha' b hb' h1
    exact sorted_perm_eq_of_antisymm_mem hperm hsortedD hrevD hanti

/-- C8 witness: the sort-engine theorem applied to the concrete three-person
sequence (two entities tied on the gender key) with the gender key
extraction. -/
theorem c8_sort_total_order_and_reverse_witness :
    (order_people gender_key SortDirection.asc sort_sample).Perm sort_sample
    ∧ (order_people gender_key SortDirection.asc sort_sample).Pairwise
        (asc_rel gender_key)
    ∧ (order_people gender_key SortDirection.desc sort_sample).Perm sort_sample
    ∧ (order_people gender_key SortDirection.desc sort_sample).Pairwise
        (desc_rel gender_key)
    ∧ (∀ a b, asc_rel gender_key a b ∨ asc_rel gender_key b a)
    ∧ (∀ a ∈ sort_sample, ∀ b ∈ sort_sample,
        asc_rel gender_key a b → asc_rel gender_key b a → a = b)
    ∧ ((sort_sample.map gender_key).Nodup →
        order_people gender_key SortDirection.desc sort_sample
          = (order_people gender_key SortDirection.asc sort_sample).reverse) :=
  c8_sort_total_order_and_reverse gender_key sort_sample (by decide)

end GrampsWebapi
